import Mathlib

/-!
Verification development for the subscription-cancellation flow's security
core: input sanitizer, rate limiter, CSRF protection, A/B assignment and
pricing, and the request gatekeeper.  Each definition is a shallow
embedding of the corresponding TypeScript function; machine integers are
modelled as Nat/Int, ambient time (Date.now) as an explicit Nat argument,
and the mutable stores as explicit association lists threaded through the
operations.
-/

namespace CancelFlow

/-! ## Character classes and string scanning (JS regex building blocks) -/

/-- JS regex `\w` character class: `[A-Za-z0-9_]`. -/
def isWordCh (c : Char) : Bool := c.isAlphanum || c = '_'

/-- JS regex `\s` character class, restricted to the ASCII whitespace
characters (space, tab, line feed, carriage return, vertical tab, form
feed); the inputs of interest contain no exotic Unicode whitespace. -/
def isSpaceCh (c : Char) : Bool :=
  c = ' ' || c = '\t' || c = '\n' || c = '\r' || c = '\x0b' || c = '\x0c'

/-- Case-insensitive character comparison, as used by the `i` regex flag. -/
def ciEq (a b : Char) : Bool := a.toLower = b.toLower

/-- `startsWithBy eq pat l`: `pat` matches at the head of `l` under the
character comparison `eq`. -/
def startsWithBy (eq : Char → Char → Bool) : List Char → List Char → Bool
  | [], _ => true
  | _ :: _, [] => false
  | p :: ps, c :: cs => eq p c && startsWithBy eq ps cs

/-- `hasSubBy eq pat l`: `pat` occurs as a contiguous sublist of `l` under
the character comparison `eq` (JS `String.includes` / unanchored regex). -/
def hasSubBy (eq : Char → Char → Bool) (pat : List Char) : List Char → Bool
  | [] => pat.isEmpty
  | c :: cs => startsWithBy eq pat (c :: cs) || hasSubBy eq pat cs

/-- Case-insensitive `startsWith`. -/
def ciStartsWith (pat l : List Char) : Bool := startsWithBy ciEq pat l

/-- Case-insensitive substring occurrence. -/
def ciHasSub (pat l : List Char) : Bool := hasSubBy ciEq pat l

/-- Case-sensitive substring occurrence on strings (JS `includes`). -/
def csHasSubStr (pat s : String) : Bool := hasSubBy (fun a b => a == b) pat.data s.data

/-- Case-insensitive substring occurrence on strings (an unanchored
`/pat/i` regex test for a fixed pattern). -/
def ciHasSubStr (pat s : String) : Bool := ciHasSub pat.data s.data

/-- Scanning loop of `ciRemoveAll`, structurally recursive on a fuel
argument so that the kernel can evaluate it; each step consumes one fuel
and shortens the list by at least one character, so a fuel equal to the
list length never runs out. -/
def ciRemoveAllFuel (pat : List Char) : Nat → List Char → List Char
  | 0, _ => []
  | _ + 1, [] => []
  | fuel + 1, c :: cs =>
    if pat ≠ [] && ciStartsWith pat (c :: cs) then
      ciRemoveAllFuel pat fuel (cs.drop (pat.length - 1))
    else
      c :: ciRemoveAllFuel pat fuel cs

/-- `ciRemoveAll pat l` is JS `l.replace(/pat/gi, '')` for a fixed string
pattern `pat`: a single left-to-right scan deleting each non-overlapping
case-insensitive occurrence, never rescanning the produced output. -/
def ciRemoveAll (pat l : List Char) : List Char :=
  ciRemoveAllFuel pat l.length l

/-- Length of the match of the regex `on\w+\s*=` (case-insensitive) at the
head of the list, if it matches there.  Since `\w`, `\s` and `=` are
pairwise disjoint, the greedy maximal-munch reading is exact. -/
def onEventMatchLen (l : List Char) : Option Nat :=
  match l with
  | o :: n :: rest =>
    if ciEq o 'o' && ciEq n 'n' then
      let w := rest.takeWhile isWordCh
      if w.isEmpty then none
      else
        let rest2 := rest.drop w.length
        let sp := rest2.takeWhile isSpaceCh
        match rest2.drop sp.length with
        | '=' :: _ => some (2 + w.length + sp.length + 1)
        | _ => none
    else none
  | _ => none

/-- Scanning loop of `removeOnEvents` (fuel-based, as above). -/
def removeOnEventsFuel : Nat → List Char → List Char
  | 0, _ => []
  | _ + 1, [] => []
  | fuel + 1, c :: cs =>
    match onEventMatchLen (c :: cs) with
    | some k => removeOnEventsFuel fuel (cs.drop (k - 1))
    | none => c :: removeOnEventsFuel fuel cs

/-- JS `l.replace(/on\w+\s*=/gi, '')`: single left-to-right pass deleting
each match of the inline-event-handler pattern. -/
def removeOnEvents (l : List Char) : List Char :=
  removeOnEventsFuel l.length l

/-- JS `String.trim` (ASCII whitespace). -/
def jsTrim (l : List Char) : List Char :=
  ((l.dropWhile isSpaceCh).reverse.dropWhile isSpaceCh).reverse

/-! ## DOMPurify model

`input-sanitizer.ts` delegates markup stripping to the external `dompurify`
package, whose source is not part of this repository.  The functions below
are therefore modelled from the spec (§4.2): with `ALLOWED_TAGS: []` and
`KEEP_CONTENT: true` the sanitizer strips every tag while keeping ordinary
text content, except that the raw-text content of dangerous elements
(`script`, `style`) is dropped together with the element itself. -/

/-- Drop everything up to and including the next `>` (the remainder of a
tag being skipped).  If no `>` follows, the rest of the input is consumed
as an unterminated tag. -/
def dropPastGt (l : List Char) : List Char :=
  (l.dropWhile (fun c => !(c = '>'))).drop 1

/-- Lower-cased leading tag name (maximal run of ASCII letters). -/
def tagNameAt (l : List Char) : List Char :=
  (l.takeWhile Char.isAlpha).map Char.toLower

/-- Elements whose text content is discarded along with the element. -/
def forbidContentTags : List (List Char) :=
  [['s','c','r','i','p','t'], ['s','t','y','l','e']]

/-- Modelled from the spec: skip the raw-text content of a dangerous
element, up to and including its matching close tag `</name …>`. -/
def dropRawContent (name : List Char) : List Char → List Char
  | [] => []
  | c :: cs =>
    if c = '<' && ciStartsWith ('/' :: name) cs then
      dropPastGt (cs.drop (name.length + 1))
    else dropRawContent name cs

/-- Scanning loop of `domPurifyStrip` (fuel-based: each step consumes one
fuel and strictly shortens the remaining input, so a fuel equal to the
input length never runs out). -/
def domPurifyStripFuel : Nat → List Char → List Char
  | 0, _ => []
  | _ + 1, [] => []
  | fuel + 1, '<' :: cs =>
    match cs with
    | [] => ['<']
    | d :: rest =>
      if d = '/' then domPurifyStripFuel fuel (dropPastGt (d :: rest))
      else if d.isAlpha then
        if tagNameAt (d :: rest) ∈ forbidContentTags then
          domPurifyStripFuel fuel
            (dropRawContent (tagNameAt (d :: rest)) (dropPastGt (d :: rest)))
        else domPurifyStripFuel fuel (dropPastGt (d :: rest))
      else '<' :: domPurifyStripFuel fuel (d :: rest)
  | fuel + 1, c :: cs => c :: domPurifyStripFuel fuel cs

/-- Modelled from the spec: `DOMPurify.sanitize` with the plain-text
options of `input-sanitizer.ts` (`ALLOWED_TAGS: []`, `KEEP_CONTENT:
true`): every tag is removed, ordinary text is kept, and the content of
`script`/`style` elements is dropped with the element. -/
def domPurifyStrip (l : List Char) : List Char :=
  domPurifyStripFuel l.length l

/-! ## Input sanitizer (`input-sanitizer.ts`, `InputSanitizer`) -/

/-- A JavaScript value as it may arrive in a parsed JSON request body:
the sanitizers are written against `string` parameters but JS lets any
value flow in, which `sanitizeText`'s `typeof input !== 'string'` guard
handles. -/
inductive JSVal where
  | str (s : String)
  | num (n : Int)
  | boolean (b : Bool)
  | null
  | undef
deriving DecidableEq

/-- `InputSanitizer.sanitizeText` on the underlying character list:
`DOMPurify.sanitize` with the plain-text options, then the four
global case-insensitive replacements (`javascript:`, `vbscript:`,
`data:`, `on\w+\s*=`), then `trim()`. -/
def sanitizeTextL (l : List Char) : List Char :=
  jsTrim (removeOnEvents
    (ciRemoveAll "data:".data
      (ciRemoveAll "vbscript:".data
        (ciRemoveAll "javascript:".data (domPurifyStrip l)))))

/-- `InputSanitizer.sanitizeText`: non-string input yields `""`. -/
def sanitizeText (input : JSVal) : String :=
  match input with
  | .str s => ⟨sanitizeTextL s.data⟩
  | _ => ""

/-- Tags allowed by `htmlSanitizeOptions` (`ALLOWED_TAGS`). -/
def allowedHtmlTags : List (List Char) :=
  [['b'], ['i'], ['e','m'], ['s','t','r','o','n','g'], ['a'], ['p'], ['b','r'],
   ['u','l'], ['o','l'], ['l','i'],
   ['h','1'], ['h','2'], ['h','3'], ['h','4'], ['h','5'], ['h','6']]

/-- Length of a tag starting at the head of `l` (through the closing
`>`), used to copy an allowed tag verbatim. -/
def tagSpanLen (l : List Char) : Nat :=
  l.length - (dropPastGt l).length

/-- Modelled from the spec: `DOMPurify.sanitize` with `htmlSanitizeOptions`
(allow-list `b,i,em,strong,a,p,br,ul,ol,li,h1..h6`): tags on the allow
list are kept, all others are stripped, and the content of
`script`/`style` elements is dropped with the element.  The narrow
attribute allow-list (`href,target,rel`) is below the granularity any
claim depends on and is not modelled: allowed tags are kept verbatim. -/
def domPurifyHtmlFuel : Nat → List Char → List Char
  | 0, _ => []
  | _ + 1, [] => []
  | fuel + 1, '<' :: cs =>
    match cs with
    | [] => ['<']
    | d :: rest =>
      if d = '/' then
        if tagNameAt rest ∈ allowedHtmlTags then
          ('<' :: List.take (tagSpanLen (d :: rest)) (d :: rest)) ++
            domPurifyHtmlFuel fuel (dropPastGt (d :: rest))
        else domPurifyHtmlFuel fuel (dropPastGt (d :: rest))
      else if d.isAlpha then
        if tagNameAt (d :: rest) ∈ forbidContentTags then
          domPurifyHtmlFuel fuel
            (dropRawContent (tagNameAt (d :: rest)) (dropPastGt (d :: rest)))
        else if tagNameAt (d :: rest) ∈ allowedHtmlTags then
          ('<' :: List.take (tagSpanLen (d :: rest)) (d :: rest)) ++
            domPurifyHtmlFuel fuel (dropPastGt (d :: rest))
        else domPurifyHtmlFuel fuel (dropPastGt (d :: rest))
      else '<' :: domPurifyHtmlFuel fuel (d :: rest)
  | fuel + 1, c :: cs => c :: domPurifyHtmlFuel fuel cs

/-- `InputSanitizer.sanitizeHTML`: non-string input yields `""`.  The
string case applies the `domPurifyHtmlFuel` allow-list stripper. -/
def sanitizeHTML (input : JSVal) : String :=
  match input with
  | .str s => ⟨domPurifyHtmlFuel s.data.length s.data⟩
  | _ => ""

/-- Character class `[a-zA-Z0-9._%+-]` (email local part). -/
def emailLocalCh (c : Char) : Bool :=
  c.isAlphanum || c = '.' || c = '_' || c = '%' || c = '+' || c = '-'

/-- Character class `[a-zA-Z0-9.-]` (email domain part). -/
def emailDomCh (c : Char) : Bool := c.isAlphanum || c = '.' || c = '-'

/-- `validationPatterns.email` applied to the domain side
`[a-zA-Z0-9.-]+\.[a-zA-Z]{2,}$`: the dot must be the last dot of the
string, followed by at least two letters, with a non-empty domain-class
run before it. -/
def emailDomainMatch (l : List Char) : Bool :=
  let rev := l.reverse
  let tld := rev.takeWhile Char.isAlpha
  match rev.drop tld.length with
  | '.' :: before => 2 ≤ tld.length && !before.isEmpty && before.all emailDomCh
  | _ => false

/-- `validationPatterns.email`: `^[a-zA-Z0-9._%+-]+@[a-zA-Z0-9.-]+\.[a-zA-Z]{2,}$`. -/
def emailMatch (l : List Char) : Bool :=
  let localPart := l.takeWhile emailLocalCh
  match l.drop localPart.length with
  | '@' :: rest => !localPart.isEmpty && emailDomainMatch rest
  | _ => false

/-- `validationPatterns.amount`: `^\d+(\.\d{1,2})?$`. -/
def amountMatch (l : List Char) : Bool :=
  let ds := l.takeWhile Char.isDigit
  if ds.isEmpty then false
  else
    match l.drop ds.length with
    | [] => true
    | '.' :: fs => !fs.isEmpty && fs.length ≤ 2 && fs.all Char.isDigit
    | _ => false

/-- Character class `[a-zA-Z0-9\-_]` (user id). -/
def userIdCh (c : Char) : Bool := c.isAlphanum || c = '-' || c = '_'

/-- `validationPatterns.userId`: `^[a-zA-Z0-9\-_]{1,50}$`. -/
def userIdMatch (l : List Char) : Bool :=
  1 ≤ l.length && l.length ≤ 50 && l.all userIdCh

/-- Character class `[a-zA-Z0-9\s\-_]` (cancellation reason). -/
def reasonCh (c : Char) : Bool := c.isAlphanum || isSpaceCh c || c = '-' || c = '_'

/-- `validationPatterns.reason`: `^[a-zA-Z0-9\s\-_]+$`. -/
def reasonMatch (l : List Char) : Bool :=
  !l.isEmpty && l.all reasonCh

/-- Decimal digits to a natural number. -/
def digitsToNat (ds : List Char) : Nat :=
  ds.foldl (fun a c => a * 10 + (c.toNat - '0'.toNat)) 0

/-- `parseFloat` on a string already known to match
`^\d+(\.\d{1,2})?$`, as an exact rational. -/
def parseAmount (l : List Char) : ℚ :=
  let ds := l.takeWhile Char.isDigit
  match l.drop ds.length with
  | '.' :: fs => (digitsToNat ds : ℚ) + (digitsToNat fs : ℚ) / ((10 : ℚ) ^ fs.length)
  | _ => (digitsToNat ds : ℚ)

/-- `InputSanitizer.sanitizeEmail`. -/
def sanitizeEmail (input : JSVal) : Option String :=
  let sanitized : String := ⟨(sanitizeText input).data.map Char.toLower⟩
  if emailMatch sanitized.data then some sanitized else none

/-- `InputSanitizer.sanitizeAmount`. -/
def sanitizeAmount (input : JSVal) : Option ℚ :=
  let sanitized := sanitizeText input
  if amountMatch sanitized.data then
    let amount := parseAmount sanitized.data
    if amount < 0 then none else some amount
  else none

/-- `InputSanitizer.sanitizeUserId`. -/
def sanitizeUserId (input : JSVal) : Option String :=
  let sanitized := sanitizeText input
  if userIdMatch sanitized.data then some sanitized else none

/-- `InputSanitizer.sanitizeFeedback` (the source defaults `minLength`
to 25 and `maxLength` to 1000 at its single call site). -/
def sanitizeFeedback (input : JSVal) (minLength maxLength : Nat) : Option String :=
  let sanitized := sanitizeText input
  if sanitized.length < minLength || maxLength < sanitized.length then none
  else if csHasSubStr "<script" sanitized || csHasSubStr "javascript:" sanitized ||
      csHasSubStr "data:" sanitized then none
  else some sanitized

/-- `InputSanitizer.sanitizeReason`. -/
def sanitizeReason (input : JSVal) : Option String :=
  let sanitized := sanitizeText input
  if reasonMatch sanitized.data then some sanitized else none

/-- Open tag `<name` with a regex `\b` word boundary immediately after the
name, matching at the head of `l` (case-insensitive), as in the
`maliciousPatterns` of `InputSanitizer.isMalicious`. -/
def openTagAt (name : List Char) (l : List Char) : Bool :=
  ciStartsWith ('<' :: name) l &&
    (match l.drop (name.length + 1) with
     | [] => true
     | c :: _ => !isWordCh c)

/-- Test of a `maliciousPatterns` regex of the shape
`<name\b[^<]*(?:(?!<\/name>)<[^<]*)*<\/name>` (case-insensitive).  Under
backtracking this matches exactly when some `<name` occurrence with a
word boundary is followed, at or after the end of that open prefix, by an
occurrence of `</name>`: the chunk loop `<[^<]*` visits every later `<`
in order and closes at the first one starting `</name>`. -/
def tagPairTest (name : List Char) : List Char → Bool
  | [] => false
  | c :: cs =>
    (openTagAt name (c :: cs) && ciHasSub ('<' :: '/' :: (name ++ ['>'])) (cs.drop name.length)) ||
      tagPairTest name cs

/-- Unanchored test of the regex `on\w+\s*=` (case-insensitive). -/
def onEventTest : List Char → Bool
  | [] => false
  | c :: cs => (onEventMatchLen (c :: cs)).isSome || onEventTest cs

/-- `InputSanitizer.isMalicious`: true when the input matches any of the
fixed dangerous patterns (script/iframe/object/embed elements, the
`javascript:`/`vbscript:`/`data:` schemes, inline event handlers). -/
def isMalicious (input : String) : Bool :=
  let l := input.data
  tagPairTest "script".data l ||
  ciHasSub "javascript:".data l ||
  ciHasSub "vbscript:".data l ||
  ciHasSub "data:".data l ||
  onEventTest l ||
  tagPairTest "iframe".data l ||
  tagPairTest "object".data l ||
  tagPairTest "embed".data l

/-- `InputSanitizer.generateSecureToken`'s alphanumeric alphabet. -/
def tokenChars : List Char :=
  "ABCDEFGHIJKLMNOPQRSTUVWXYZabcdefghijklmnopqrstuvwxyz0123456789".data

/-- `InputSanitizer.generateSecureToken`, with the byte source (secure
when `window.crypto` is available, `Math.random` otherwise) supplied
explicitly as the list of drawn bytes, one per output character. -/
def generateSecureToken (bytes : List Nat) : String :=
  ⟨bytes.map (fun b => tokenChars.getD (b % tokenChars.length) 'A')⟩

/-! ## `sanitizeObject` and the cancellation request handler
(`src/app/api/cancellation/route.ts`) -/

/-- A parsed `POST /cancellation` JSON body.  `none` models a field that
is absent, `undefined` or `null` (all skipped by `sanitizeObject`'s
`obj[key] !== undefined && obj[key] !== null` guard; `JSVal.null` /
`JSVal.undef` stored under a present key are skipped the same way). -/
structure RequestBody where
  userId : Option JSVal
  variant : Option JSVal
  reason : Option JSVal
  amount : Option JSVal
  feedback : Option JSVal
deriving DecidableEq

/-- The presence guard of `sanitizeObject`. -/
def presentVal (v : Option JSVal) : Option JSVal :=
  match v with
  | some .null => none
  | some .undef => none
  | some w => some w
  | none => none

/-- Result of `InputSanitizer.sanitizeObject(body, cancellationSchema)`.
A field is `none` when it was absent from the body or its sanitizer
returned `null` (the handler's truthiness checks treat both alike). -/
structure SanitizedData where
  userId : Option String
  variant : Option String
  reason : Option String
  amount : Option ℚ
  feedback : Option String
deriving DecidableEq

/-- `InputSanitizer.sanitizeObject` with the route's `cancellationSchema`
(`userId: 'userId', variant: 'text', reason: 'reason', amount: 'amount',
feedback: 'feedback'`). -/
def sanitizeObject (body : RequestBody) : SanitizedData :=
  { userId := (presentVal body.userId).bind sanitizeUserId
    variant := (presentVal body.variant).map sanitizeText
    reason := (presentVal body.reason).bind sanitizeReason
    amount := (presentVal body.amount).bind sanitizeAmount
    feedback := (presentVal body.feedback).bind (fun v => sanitizeFeedback v 25 1000) }

/-- JS truthiness of a possibly-absent string (`!x` is true for
`undefined`, `null` and `''`). -/
def truthyStr (o : Option String) : Bool :=
  match o with
  | some s => !(s = "")
  | none => false

/-- `handleCancellationCompletion` (`database-operations.ts`): the mock
persistence layer logs and unconditionally reports success. -/
def handleCancellationCompletion (userId variant reason : String)
    (amount : Option String) (feedback : Option String) : Bool :=
  true

/-- Outcome of the `handleCancellation` route handler: HTTP status, the
`error` field of the JSON body when present, whether the persistence
function `handleCancellationCompletion` was invoked, and the
`data:{userId,variant,reason}` payload of a success response. -/
structure HandlerResult where
  status : Nat
  errorMsg : Option String
  persistenceCalled : Bool
  successData : Option (String × String × String)
deriving DecidableEq

/-- `handleCancellation` (`src/app/api/cancellation/route.ts`): sanitize
the body against `cancellationSchema`, reject missing required fields,
an invalid variant, or malicious feedback with `400`; otherwise invoke
the mock persistence and answer `200` (or `500` had persistence
failed). -/
def handleCancellation (body : RequestBody) : HandlerResult :=
  let sanitizedData := sanitizeObject body
  if !truthyStr sanitizedData.userId || !truthyStr sanitizedData.variant ||
      !truthyStr sanitizedData.reason then
    { status := 400, errorMsg := some "Missing required fields",
      persistenceCalled := false, successData := none }
  else if !(sanitizedData.variant = some "A" || sanitizedData.variant = some "B") then
    { status := 400, errorMsg := some "Invalid variant",
      persistenceCalled := false, successData := none }
  else if isMalicious (sanitizedData.feedback.getD "") then
    { status := 400, errorMsg := some "Malicious content detected",
      persistenceCalled := false, successData := none }
  else
    let result := handleCancellationCompletion
      (sanitizedData.userId.getD "") (sanitizedData.variant.getD "")
      (sanitizedData.reason.getD "")
      (sanitizedData.amount.map toString) sanitizedData.feedback
    if !result then
      { status := 500, errorMsg := some "Failed to process cancellation",
        persistenceCalled := true, successData := none }
    else
      { status := 200, errorMsg := none, persistenceCalled := true,
        successData := some (sanitizedData.userId.getD "",
          sanitizedData.variant.getD "", sanitizedData.reason.getD "") }

/-! ## Rate limiter (`rate-limiter.ts`, class `RateLimiter`)

`Date.now()` is passed explicitly as `now` (milliseconds); the mutable
per-instance store is threaded as an association list. -/

/-- `RateLimitConfig` (the fields the `check` algorithm reads). -/
structure RateLimitConfig where
  windowMs : Nat
  maxRequests : Nat
deriving DecidableEq

/-- One entry of `RateLimitStore`. -/
structure RateLimitEntry where
  count : Nat
  resetTime : Nat
deriving DecidableEq

/-- `RateLimitStore`: the keyed mutable object `this.store`. -/
abbrev RateLimitStore := List (String × RateLimitEntry)

/-- `this.store[key]` lookup. -/
def storeGet : RateLimitStore → String → Option RateLimitEntry
  | [], _ => none
  | p :: rest, k => if p.1 = k then some p.2 else storeGet rest k

/-- `this.store[key] = e` (replace if present, insert otherwise). -/
def storeSet : RateLimitStore → String → RateLimitEntry → RateLimitStore
  | [], k, e => [(k, e)]
  | p :: rest, k, e => if p.1 = k then (k, e) :: rest else p :: storeSet rest k e

/-- `RateLimiter.cleanup`: delete every entry with `resetTime ≤ now`. -/
def cleanup (now : Nat) (st : RateLimitStore) : RateLimitStore :=
  st.filter (fun p => decide (now < p.2.resetTime))

/-- The record returned by `RateLimiter.check`.  `remaining` is an `Int`
because JS computes `maxRequests - 1` and `maxRequests - count` with
signed arithmetic. -/
structure RateLimitResult where
  allowed : Bool
  remaining : Int
  resetTime : Nat
deriving DecidableEq

/-- `RateLimiter.check(key)`: opportunistic cleanup, then either
initialize the entry (first observation or expired window), refuse
without mutation (count at the limit), or increment. -/
def check (cfg : RateLimitConfig) (st : RateLimitStore) (key : String) (now : Nat) :
    RateLimitResult × RateLimitStore :=
  match storeGet (cleanup now st) key with
  | none =>
    (⟨true, (cfg.maxRequests : Int) - 1, now + cfg.windowMs⟩,
     storeSet (cleanup now st) key ⟨1, now + cfg.windowMs⟩)
  | some e =>
    if e.resetTime ≤ now then
      (⟨true, (cfg.maxRequests : Int) - 1, now + cfg.windowMs⟩,
       storeSet (cleanup now st) key ⟨1, now + cfg.windowMs⟩)
    else if cfg.maxRequests ≤ e.count then
      (⟨false, 0, e.resetTime⟩, cleanup now st)
    else
      (⟨true, (cfg.maxRequests : Int) - ((e.count + 1 : Nat) : Int), e.resetTime⟩,
       storeSet (cleanup now st) key ⟨e.count + 1, e.resetTime⟩)

/-- `RateLimiter.reset(key)`. -/
def resetKey (st : RateLimitStore) (key : String) : RateLimitStore :=
  st.filter (fun p => decide (p.1 ≠ key))

/-- Run a sequence of `check` calls (key and `Date.now()` per call),
keeping only the final store. -/
def runChecks (cfg : RateLimitConfig) (st : RateLimitStore) :
    List (String × Nat) → RateLimitStore
  | [] => st
  | (k, t) :: rest => runChecks cfg (check cfg st k t).2 rest

/-- Well-formedness of a store: at most one entry per key, as in the JS
object `this.store` (every store reachable from the empty one satisfies
this). -/
def keysNodup (st : RateLimitStore) : Prop := (st.map Prod.fst).Nodup

/-- Every entry's count is bounded by `m`. -/
def countsBounded (st : RateLimitStore) (m : Nat) : Prop :=
  ∀ p ∈ st, p.2.count ≤ m

/-- The four pre-configured limiters of `rateLimiters`. -/
def apiConfig : RateLimitConfig := ⟨15 * 60 * 1000, 100⟩

def authConfig : RateLimitConfig := ⟨15 * 60 * 1000, 5⟩

def cancellationConfig : RateLimitConfig := ⟨60 * 60 * 1000, 10⟩

def feedbackConfig : RateLimitConfig := ⟨60 * 60 * 1000, 5⟩

/-! ## CSRF protection (`csrf-protection.ts`, class `CSRFProtection`) -/

/-- Loop of `CSRFProtection.timingSafeEqual` with an explicit step
counter: `result |= a.charCodeAt(i) ^ b.charCodeAt(i)` per iteration.
Returns the accumulated `result` and the number of per-character
comparison steps executed. -/
def tseLoop : List Char → List Char → Nat → Nat → Nat × Nat
  | [], _, r, steps => (r, steps)
  | _ :: _, [], r, steps => (r, steps)
  | a :: as, b :: bs, r, steps => tseLoop as bs (r ||| (a.toNat ^^^ b.toNat)) (steps + 1)

/-- `CSRFProtection.timingSafeEqual`: length check, then OR-accumulated
XOR over the full length. -/
def timingSafeEqual (a b : String) : Bool :=
  if a.length ≠ b.length then false
  else (tseLoop a.data b.data 0 0).1 = 0

/-- Instrumented `timingSafeEqual`: the same computation together with
the number of per-character comparison steps the loop performs. -/
def timingSafeEqualSteps (a b : String) : Bool × Nat :=
  if a.length ≠ b.length then (false, 0)
  else
    let out := tseLoop a.data b.data 0 0
    (out.1 = 0, out.2)

/-- `CSRFProtection.verifyToken`: reject when either token is falsy
(empty), otherwise timing-safe comparison. -/
def verifyToken (token storedToken : String) : Bool :=
  if token = "" || storedToken = "" then false
  else timingSafeEqual token storedToken

/-- Outcome of `CSRFProtection.middleware` on a request: either the
wrapped handler is invoked, or a terminal JSON error response is
returned and the handler is never invoked. -/
inductive CsrfOutcome where
  | proceed
  | reject (status : Nat) (error : String) (message : String)
deriving DecidableEq

/-- `CSRFProtection.middleware`: GET requests skip validation (a fresh
token is issued on the response); non-GET requests compare the provided
token (header / form field / query parameter, already extracted and
sanitized, `None` when absent) with the stored cookie token via
`verifyToken(providedToken || '', storedToken || '')`. -/
def csrfMiddleware (method : String) (providedToken storedToken : Option String) :
    CsrfOutcome :=
  if method = "GET" then .proceed
  else if verifyToken (providedToken.getD "") (storedToken.getD "") then .proceed
  else .reject 403 "CSRF token validation failed" "Invalid or missing CSRF token"

/-- `CSRFProtection.validateFormToken`: format-only check (length and
alphanumeric charset), no comparison against the stored token. -/
def validateFormToken (tokenLength : Nat) (token : Option String) : Bool :=
  match token with
  | none => false
  | some t => t.length = tokenLength && !t.data.isEmpty && t.data.all Char.isAlphanum

/-! ## Response models for the rate-limited routes

Header values are `(name, value)` pairs; `new Date(ms).toISOString()` is
represented symbolically by the `HVal.iso` constructor (the calendar
formatting itself is an external runtime facility no claim depends on
beyond which timestamp is rendered). -/

inductive HVal where
  | str (s : String)
  | iso (ms : Nat)
deriving DecidableEq

/-- `Math.ceil((resetTime - Date.now()) / 1000)` in the branch where
`now < resetTime` (guaranteed whenever a check was refused, since
`cleanup` has removed expired entries). -/
def retryAfterSecs (resetTime now : Nat) : Nat :=
  (resetTime - now + 999) / 1000

/-- Response of the exported `POST` wrapper of
`src/app/api/cancellation/route.ts`: status, headers, the `retryAfter`
JSON body field of the 429 branch, and whether `handleCancellation`
ran. -/
structure RoutePostResponse where
  status : Nat
  headers : List (String × HVal)
  bodyRetryAfter : Option Nat
  handlerInvoked : Bool
deriving DecidableEq

/-- Presence of a response header by name. -/
def hasHeader (hs : List (String × HVal)) (name : String) : Bool :=
  hs.any (fun p => p.1 = name)

/-- The exported `POST` of `src/app/api/cancellation/route.ts`: check the
cancellation limiter for the client IP; when refused answer `429` with a
plain JSON body (`retryAfter` inside the body, no headers set); when
allowed run the handler and copy its status into a response carrying the
three `X-RateLimit-*` headers. -/
def cancellationPOST (st : RateLimitStore) (clientIP : String) (now : Nat)
    (handlerStatus : Nat) : RoutePostResponse × RateLimitStore :=
  if !(check cancellationConfig st clientIP now).1.allowed then
    ({ status := 429, headers := [],
       bodyRetryAfter :=
         some (retryAfterSecs (check cancellationConfig st clientIP now).1.resetTime now),
       handlerInvoked := false }, (check cancellationConfig st clientIP now).2)
  else
    ({ status := handlerStatus,
       headers := [("X-RateLimit-Limit", .str (toString cancellationConfig.maxRequests)),
                   ("X-RateLimit-Remaining",
                     .str (toString (check cancellationConfig st clientIP now).1.remaining)),
                   ("X-RateLimit-Reset",
                     .iso (check cancellationConfig st clientIP now).1.resetTime)],
       bodyRetryAfter := none,
       handlerInvoked := true }, (check cancellationConfig st clientIP now).2)

/-! ## Request gatekeeper (`src/middleware.ts`) -/

def suspiciousUAPatterns : List String :=
  ["bot", "crawler", "spider", "scraper", "curl", "wget", "python", "java", "perl", "ruby"]

def browserTokens : List String :=
  ["Mozilla", "Chrome", "Safari", "Firefox"]

def allowedMethods : List String :=
  ["GET", "POST", "PUT", "DELETE", "PATCH", "OPTIONS"]

def suspiciousHeaderNames : List String :=
  ["x-forwarded-host", "x-forwarded-server", "x-forwarded-for", "x-real-ip",
   "x-client-ip", "x-cluster-client-ip", "x-forwarded", "forwarded-for", "forwarded"]

/-- Request-header lookup (the source reads already-lowercased names). -/
def lookupHeader (hs : List (String × String)) (name : String) : Option String :=
  (hs.find? (fun p => p.1 = name)).map Prod.snd

/-- A middleware response: status plus the headers actually present on
the returned object.  `NextResponse.next()` pass-through is status 200
here; note that the source's 403/405 branches build fresh responses that
do not carry the headers previously set on the pass-through object. -/
structure MwResponse where
  status : Nat
  headers : List (String × HVal)
deriving DecidableEq

/-- The user-agent heuristic of step 4: a suspicious automation
signature without any mainstream browser token. -/
def uaSuspiciousNonBrowser (userAgent : String) : Bool :=
  suspiciousUAPatterns.any (fun p => ciHasSubStr p userAgent) &&
    !(browserTokens.any (fun b => csHasSubStr b userAgent))

/-- The forwarding-header loopback heuristic of step 6. -/
def headerSpoofDetected (reqHeaders : List (String × String)) : Bool :=
  suspiciousHeaderNames.any (fun h =>
    match lookupHeader reqHeaders h with
    | some v => csHasSubStr "localhost" v || csHasSubStr "127.0.0.1" v ||
        csHasSubStr "::1" v
    | none => false)

/-- `middleware(request)` of `src/middleware.ts`: general rate limit
(429 with full rate-limit headers on refusal), rate-limit and hardening
headers on the pass-through response, suspicious user-agent rejection,
method allow-list, forwarding-header loopback heuristic, and the
request-correlation id (`reqId`, generated from `Date.now()` and
`Math.random()`, supplied here as an argument). -/
def globalMiddleware (st : RateLimitStore) (clientIP userAgent method : String)
    (reqHeaders : List (String × String)) (reqId : String) (now : Nat) :
    MwResponse × RateLimitStore :=
  if !(check apiConfig st clientIP now).1.allowed then
    ({ status := 429,
       headers := [("Content-Type", .str "application/json"),
                   ("X-RateLimit-Limit", .str (toString apiConfig.maxRequests)),
                   ("X-RateLimit-Remaining",
                     .str (toString (check apiConfig st clientIP now).1.remaining)),
                   ("X-RateLimit-Reset", .iso (check apiConfig st clientIP now).1.resetTime),
                   ("Retry-After",
                     .str (toString
                       (retryAfterSecs (check apiConfig st clientIP now).1.resetTime now)))] },
     (check apiConfig st clientIP now).2)
  else if uaSuspiciousNonBrowser userAgent then
    ({ status := 403, headers := [("Content-Type", .str "application/json")] },
     (check apiConfig st clientIP now).2)
  else if !(allowedMethods.contains method) then
    ({ status := 405, headers := [("Content-Type", .str "application/json")] },
     (check apiConfig st clientIP now).2)
  else if headerSpoofDetected reqHeaders then
    ({ status := 403, headers := [("Content-Type", .str "application/json")] },
     (check apiConfig st clientIP now).2)
  else
    ({ status := 200,
       headers := [("X-RateLimit-Limit", .str (toString apiConfig.maxRequests)),
                   ("X-RateLimit-Remaining",
                     .str (toString (check apiConfig st clientIP now).1.remaining)),
                   ("X-RateLimit-Reset", .iso (check apiConfig st clientIP now).1.resetTime),
                   ("X-DNS-Prefetch-Control", .str "off"),
                   ("X-Download-Options", .str "noopen"),
                   ("X-Permitted-Cross-Domain-Policies", .str "none"),
                   ("X-Document-Policy", .str "force-load-at-top"),
                   ("X-Request-ID", .str reqId)] },
     (check apiConfig st clientIP now).2)

/-! ## A/B assignment and pricing (`ab-testing.ts`) -/

inductive ABVariant where
  | A
  | B
deriving DecidableEq

def variantToString : ABVariant → String
  | .A => "A"
  | .B => "B"

/-- Result record of `getOrAssignVariant`. -/
structure ABTestResult where
  variant : ABVariant
  isNewAssignment : Bool
deriving DecidableEq

/-- The browser's `localStorage`. -/
abbrev LocalStorage := List (String × String)

def lsGet : LocalStorage → String → Option String
  | [], _ => none
  | p :: rest, k => if p.1 = k then some p.2 else lsGet rest k

def lsSet : LocalStorage → String → String → LocalStorage
  | [], k, v => [(k, v)]
  | p :: rest, k, v => if p.1 = k then (k, v) :: rest else p :: lsSet rest k v

/-- `generateSecureVariant`: one secure random byte when
`window.crypto.getRandomValues` is available (`< 128 ⇒ A`), otherwise a
`Math.random() < 0.5` draw; both randomness sources are supplied as
arguments. -/
def generateSecureVariant (cryptoAvailable : Bool) (secureByte : Nat)
    (mathRandomBelowHalf : Bool) : ABVariant :=
  if cryptoAvailable then (if secureByte < 128 then .A else .B)
  else (if mathRandomBelowHalf then .A else .B)

/-- `getOrAssignVariant(userId)`: in a browser (`browser = true`,
durable persistence available) read `localStorage` under
`ab-variant-<userId>`; a stored `'A'`/`'B'` is returned with
`isNewAssignment=false`, otherwise a fresh draw is stored and returned
with `isNewAssignment=true`.  Outside the browser a fresh draw is
returned every call without persistence.  (The source's `catch` fallback
to `('A', false)` is unreachable in this model, whose storage never
throws.) -/
def getOrAssignVariant (browser cryptoAvailable : Bool) (secureByte : Nat)
    (mathRandomBelowHalf : Bool) (storage : LocalStorage) (userId : String) :
    ABTestResult × LocalStorage :=
  if browser then
    let storageKey := "ab-variant-" ++ userId
    let existingVariant := lsGet storage storageKey
    if existingVariant = some "A" then
      ({ variant := .A, isNewAssignment := false }, storage)
    else if existingVariant = some "B" then
      ({ variant := .B, isNewAssignment := false }, storage)
    else
      let variant := generateSecureVariant cryptoAvailable secureByte mathRandomBelowHalf
      ({ variant := variant, isNewAssignment := true },
       lsSet storage storageKey (variantToString variant))
  else
    ({ variant := generateSecureVariant cryptoAvailable secureByte mathRandomBelowHalf,
       isNewAssignment := true }, storage)

/-- `calculateDownsellPrice(currentPrice, variant)`: variant A keeps the
price, variant B takes $10 (1000 cents) off, floored at zero. -/
def calculateDownsellPrice (currentPrice : Int) (variant : ABVariant) : Int :=
  match variant with
  | .A => currentPrice
  | .B => max (currentPrice - 1000) 0

/-- The `POST /cancellation` body of the end-to-end scenario: valid
`userId`, `variant` and `reason`, and the XSS probe as `feedback`. -/
def c1Body : RequestBody :=
  { userId := some (.str "u1"), variant := some (.str "A"),
    reason := some (.str "too-expensive"), amount := none,
    feedback := some (.str "<script>alert('xss')</script>") }

/-! ## Supporting lemmas -/

theorem nat_or_eq_zero_iff (m n : Nat) : m ||| n = 0 ↔ m = 0 ∧ n = 0 := by
  constructor
  · intro h
    constructor
    · apply Nat.eq_of_testBit_eq
      intro i
      have := congrArg (fun x => Nat.testBit x i) h
      simp only [Nat.testBit_or, Nat.zero_testBit, Bool.or_eq_false_iff] at this
      simp [this.1]
    · apply Nat.eq_of_testBit_eq
      intro i
      have := congrArg (fun x => Nat.testBit x i) h
      simp only [Nat.testBit_or, Nat.zero_testBit, Bool.or_eq_false_iff] at this
      simp [this.2]
  · rintro ⟨rfl, rfl⟩
    rfl

theorem char_toNat_inj {a b : Char} (h : a.toNat = b.toNat) : a = b := by
  have h3 : a.val = b.val := by
    apply UInt32.eq_of_toBitVec_eq
    apply BitVec.eq_of_toNat_eq
    exact h
  exact Char.ext h3

theorem tseLoop_fst_zero_iff : ∀ (as bs : List Char) (r s : Nat),
    (tseLoop as bs r s).1 = 0 ↔ (r = 0 ∧ ∀ p ∈ as.zip bs, p.1 = p.2) := by
  intro as
  induction as with
  | nil => intro bs r s; simp [tseLoop]
  | cons a as ih =>
    intro bs r s
    cases bs with
    | nil => simp [tseLoop]
    | cons b bs =>
      rw [tseLoop, ih]
      rw [nat_or_eq_zero_iff, Nat.xor_eq_zero]
      constructor
      · rintro ⟨⟨hr, hab⟩, hrest⟩
        refine ⟨hr, ?_⟩
        intro p hp
        rcases List.mem_cons.mp hp with h1 | h2
        · subst h1; exact char_toNat_inj hab
        · exact hrest p h2
      · rintro ⟨hr, hall⟩
        refine ⟨⟨hr, ?_⟩, ?_⟩
        · have := hall (a, b) (List.mem_cons_self _ _)
          simp only at this
          rw [this]
        · intro p hp
          exact hall p (List.mem_cons_of_mem _ hp)

theorem tseLoop_snd : ∀ (as bs : List Char) (r s : Nat),
    (tseLoop as bs r s).2 = s + min as.length bs.length := by
  intro as
  induction as with
  | nil => intro bs r s; simp [tseLoop]
  | cons a as ih =>
    intro bs r s
    cases bs with
    | nil => simp [tseLoop]
    | cons b bs =>
      rw [tseLoop, ih]
      simp only [List.length_cons]
      omega

theorem list_eq_of_zip_eq : ∀ (as bs : List Char), as.length = bs.length →
    (∀ p ∈ as.zip bs, p.1 = p.2) → as = bs := by
  intro as
  induction as with
  | nil =>
    intro bs hlen _
    cases bs with
    | nil => rfl
    | cons b bs => simp at hlen
  | cons a as ih =>
    intro bs hlen hall
    cases bs with
    | nil => simp at hlen
    | cons b bs =>
      have h1 : a = b := hall (a, b) (List.mem_cons_self _ _)
      have h2 : as = bs := by
        apply ih
        · simpa using hlen
        · intro p hp
          exact hall p (List.mem_cons_of_mem _ hp)
      rw [h1, h2]

theorem string_length_data (s : String) : s.length = s.data.length := rfl

theorem mem_zip_same {l : List Char} {p : Char × Char} (hp : p ∈ l.zip l) :
    p.1 = p.2 := by
  induction l with
  | nil => simp [List.zip] at hp
  | cons c cs ih =>
    rw [List.zip_cons_cons] at hp
    rcases List.mem_cons.mp hp with h | h
    · rw [h]
    · exact ih h

theorem timingSafeEqual_iff (a b : String) : timingSafeEqual a b = true ↔ a = b := by
  unfold timingSafeEqual
  by_cases hlen : a.length = b.length
  · simp only [hlen, ne_eq, not_true_eq_false, if_false, decide_eq_true_eq]
    rw [tseLoop_fst_zero_iff]
    constructor
    · rintro ⟨-, hall⟩
      have hdata : a.data = b.data := by
        apply list_eq_of_zip_eq _ _ _ hall
        rw [← string_length_data, ← string_length_data, hlen]
      cases a; cases b; simp only at hdata; rw [hdata]
    · rintro rfl
      exact ⟨rfl, fun p hp => mem_zip_same hp⟩
  · simp only [hlen, ne_eq, not_false_eq_true, if_true, Bool.false_eq_true, false_iff]
    intro h
    exact absurd (by rw [h]) hlen

theorem verifyToken_iff (t s : String) :
    verifyToken t s = true ↔ (t ≠ "" ∧ s ≠ "" ∧ t = s) := by
  unfold verifyToken
  by_cases ht : t = ""
  · simp [ht]
  · by_cases hs : s = ""
    · simp [ht, hs]
    · simp only [ht, hs, decide_False, Bool.or_self, Bool.false_eq_true, if_false,
        ne_eq, not_false_eq_true, true_and]
      exact timingSafeEqual_iff t s

theorem storeGet_storeSet_self (st : RateLimitStore) (k : String) (e : RateLimitEntry) :
    storeGet (storeSet st k e) k = some e := by
  induction st with
  | nil => simp [storeGet, storeSet]
  | cons p rest ih =>
    rw [storeSet]
    by_cases h : p.1 = k
    · simp [h, storeGet]
    · simp only [h, if_false]
      rw [storeGet, if_neg h]
      exact ih

theorem storeGet_mem {st : RateLimitStore} {k : String} {e : RateLimitEntry}
    (h : storeGet st k = some e) : (k, e) ∈ st := by
  induction st with
  | nil => simp [storeGet] at h
  | cons p rest ih =>
    rw [storeGet] at h
    by_cases hk : p.1 = k
    · rw [if_pos hk] at h
      obtain ⟨p1, p2⟩ := p
      simp only at hk h
      subst hk
      rw [(Option.some.injEq _ _).mp h]
      exact List.mem_cons_self _ _
    · rw [if_neg hk] at h
      exact List.mem_cons_of_mem _ (ih h)

theorem storeGet_eq_none_of_not_mem {st : RateLimitStore} {k : String}
    (h : ∀ p ∈ st, p.1 ≠ k) : storeGet st k = none := by
  induction st with
  | nil => rfl
  | cons p rest ih =>
    rw [storeGet, if_neg (h p (List.mem_cons_self _ _))]
    exact ih fun q hq => h q (List.mem_cons_of_mem _ hq)

theorem mem_cleanup {now : Nat} {st : RateLimitStore} {q : String × RateLimitEntry}
    (h : q ∈ cleanup now st) : q ∈ st :=
  (List.mem_filter.mp h).1

theorem mem_storeSet {st : RateLimitStore} {k : String} {e : RateLimitEntry}
    {q : String × RateLimitEntry} (h : q ∈ storeSet st k e) : q ∈ st ∨ q = (k, e) := by
  induction st with
  | nil =>
    right
    simpa [storeSet] using h
  | cons p rest ih =>
    rw [storeSet] at h
    by_cases hk : p.1 = k
    · rw [if_pos hk] at h
      rcases List.mem_cons.mp h with h1 | h1
      · right; exact h1
      · left; exact List.mem_cons_of_mem _ h1
    · rw [if_neg hk] at h
      rcases List.mem_cons.mp h with h1 | h1
      · left; rw [h1]; exact List.mem_cons_self _ _
      · rcases ih h1 with h2 | h2
        · left; exact List.mem_cons_of_mem _ h2
        · right; exact h2

theorem cleanup_keysNodup {now : Nat} {st : RateLimitStore} (h : keysNodup st) :
    keysNodup (cleanup now st) := by
  unfold keysNodup at *
  exact ((List.filter_sublist st).map Prod.fst).nodup h

theorem storeGet_cleanup (now : Nat) (st : RateLimitStore) (k : String)
    (h : keysNodup st) :
    storeGet (cleanup now st) k =
      (storeGet st k).bind (fun e => if now < e.resetTime then some e else none) := by
  induction st with
  | nil => rfl
  | cons p rest ih =>
    have hcons : p.1 ∉ rest.map Prod.fst ∧ (rest.map Prod.fst).Nodup := by
      have h2 : (p.1 :: rest.map Prod.fst).Nodup := by
        unfold keysNodup at h
        rwa [List.map_cons] at h
      exact List.nodup_cons.mp h2
    have hnd : keysNodup rest := hcons.2
    have hnotin : p.1 ∉ rest.map Prod.fst := hcons.1
    rw [cleanup, List.filter_cons]
    by_cases hp : now < p.2.resetTime
    · rw [if_pos (by simpa using hp)]
      rw [storeGet]
      by_cases hk : p.1 = k
      · rw [if_pos hk, storeGet, if_pos hk]
        simp [hp]
      · rw [if_neg hk, storeGet, if_neg hk]
        exact ih hnd
    · rw [if_neg (by simpa using hp)]
      by_cases hk : p.1 = k
      · have hrest : storeGet rest k = none := by
          apply storeGet_eq_none_of_not_mem
          intro q hq hqk
          exact hnotin (by
            rw [hk, ← hqk]
            exact List.mem_map_of_mem Prod.fst hq)
        have hcl : storeGet (cleanup now rest) k = none := by
          rw [ih hnd, hrest]
          rfl
        rw [show cleanup now rest = List.filter (fun q => decide (now < q.2.resetTime)) rest from rfl] at hcl
        rw [hcl, storeGet, if_pos hk]
        simp [hp]
      · rw [storeGet, if_neg hk]
        exact ih hnd

theorem storeSet_keysNodup {st : RateLimitStore} {k : String} {e : RateLimitEntry}
    (h : keysNodup st) : keysNodup (storeSet st k e) := by
  induction st with
  | nil => simp [storeSet, keysNodup]
  | cons p rest ih =>
    have hcons : p.1 ∉ rest.map Prod.fst ∧ (rest.map Prod.fst).Nodup := by
      have h2 : (p.1 :: rest.map Prod.fst).Nodup := by
        unfold keysNodup at h
        rwa [List.map_cons] at h
      exact List.nodup_cons.mp h2
    have hnd : keysNodup rest := hcons.2
    have hnotin : p.1 ∉ rest.map Prod.fst := hcons.1
    rw [storeSet]
    by_cases hk : p.1 = k
    · rw [if_pos hk]
      unfold keysNodup
      rw [List.map_cons, List.nodup_cons]
      refine ⟨by rw [← hk]; exact hnotin, hnd⟩
    · rw [if_neg hk]
      unfold keysNodup
      rw [List.map_cons, List.nodup_cons]
      constructor
      · intro hmem
        simp only [List.mem_map] at hmem
        rcases hmem with ⟨q, hq, hq1⟩
        rcases mem_storeSet hq with h1 | h1
        · exact hnotin (by rw [← hq1]; exact List.mem_map_of_mem Prod.fst h1)
        · rw [h1] at hq1
          exact hk hq1.symm
      · exact ih hnd

theorem check_keysNodup (cfg : RateLimitConfig) {st : RateLimitStore} (key : String)
    (now : Nat) (h : keysNodup st) : keysNodup (check cfg st key now).2 := by
  unfold check
  split
  · exact storeSet_keysNodup (cleanup_keysNodup h)
  · split
    · exact storeSet_keysNodup (cleanup_keysNodup h)
    · split
      · exact cleanup_keysNodup h
      · exact storeSet_keysNodup (cleanup_keysNodup h)

theorem check_preserves_bounded (cfg : RateLimitConfig) (st : RateLimitStore)
    (key : String) (now : Nat) (hm : 1 ≤ cfg.maxRequests)
    (hb : countsBounded st cfg.maxRequests) :
    countsBounded (check cfg st key now).2 cfg.maxRequests := by
  unfold check
  split
  · intro q hq
    rcases mem_storeSet hq with h1 | h1
    · exact hb q (mem_cleanup h1)
    · rw [h1]; exact hm
  · split
    · intro q hq
      rcases mem_storeSet hq with h1 | h1
      · exact hb q (mem_cleanup h1)
      · rw [h1]; exact hm
    · split
      · intro q hq
        exact hb q (mem_cleanup hq)
      · next hcount =>
        intro q hq
        rcases mem_storeSet hq with h1 | h1
        · exact hb q (mem_cleanup h1)
        · rw [h1]
          simp only
          omega

theorem runChecks_preserves_bounded (cfg : RateLimitConfig) (hm : 1 ≤ cfg.maxRequests) :
    ∀ (calls : List (String × Nat)) (st : RateLimitStore),
      countsBounded st cfg.maxRequests →
      countsBounded (runChecks cfg st calls) cfg.maxRequests := by
  intro calls
  induction calls with
  | nil => intro st hb; exact hb
  | cons c rest ih =>
    intro st hb
    obtain ⟨k, t⟩ := c
    rw [runChecks]
    exact ih _ (check_preserves_bounded cfg st k t hm hb)

theorem check_empty (cfg : RateLimitConfig) (key : String) (now : Nat) :
    check cfg [] key now =
      (⟨true, (cfg.maxRequests : Int) - 1, now + cfg.windowMs⟩,
       [(key, ⟨1, now + cfg.windowMs⟩)]) := rfl

theorem check_single_entry (cfg : RateLimitConfig) (key : String) (now c : Nat)
    (hw : 1 ≤ cfg.windowMs) :
    check cfg [(key, ⟨c, now + cfg.windowMs⟩)] key now =
      if cfg.maxRequests ≤ c then
        (⟨false, 0, now + cfg.windowMs⟩, [(key, ⟨c, now + cfg.windowMs⟩)])
      else
        (⟨true, (cfg.maxRequests : Int) - ((c + 1 : Nat) : Int), now + cfg.windowMs⟩,
         [(key, ⟨c + 1, now + cfg.windowMs⟩)]) := by
  have hclean : cleanup now [(key, ⟨c, now + cfg.windowMs⟩)] =
      [(key, (⟨c, now + cfg.windowMs⟩ : RateLimitEntry))] := by
    unfold cleanup
    rw [List.filter_cons, if_pos (by simp only [decide_eq_true_eq]; omega)]
    rfl
  have hget : storeGet (cleanup now [(key, ⟨c, now + cfg.windowMs⟩)]) key =
      some ⟨c, now + cfg.windowMs⟩ := by
    rw [hclean, storeGet, if_pos rfl]
  unfold check
  rw [hget, hclean]
  dsimp only
  rw [if_neg (show ¬(now + cfg.windowMs ≤ now) by omega)]
  by_cases hc : cfg.maxRequests ≤ c
  · rw [if_pos hc, if_pos hc]
  · rw [if_neg hc, if_neg hc]
    rw [storeSet, if_pos rfl]

theorem runChecks_replicate_single (cfg : RateLimitConfig) (key : String) (now : Nat)
    (hw : 1 ≤ cfg.windowMs) :
    ∀ (m c : Nat), 1 ≤ c → c ≤ cfg.maxRequests →
      runChecks cfg [(key, ⟨c, now + cfg.windowMs⟩)] (List.replicate m (key, now)) =
        [(key, ⟨min (c + m) cfg.maxRequests, now + cfg.windowMs⟩)] := by
  intro m
  induction m with
  | zero =>
    intro c hc1 hc2
    rw [List.replicate_zero]
    rw [show runChecks cfg [(key, ⟨c, now + cfg.windowMs⟩)] [] =
      [(key, (⟨c, now + cfg.windowMs⟩ : RateLimitEntry))] from rfl]
    have : min (c + 0) cfg.maxRequests = c := by omega
    rw [this]
  | succ m ih =>
    intro c hc1 hc2
    rw [List.replicate_succ, runChecks, check_single_entry cfg key now c hw]
    by_cases hc : cfg.maxRequests ≤ c
    · rw [if_pos hc]
      show runChecks cfg [(key, ⟨c, now + cfg.windowMs⟩)] (List.replicate m (key, now)) = _
      rw [ih c hc1 hc2]
      have : min (c + m) cfg.maxRequests = min (c + (m + 1)) cfg.maxRequests := by omega
      rw [this]
    · rw [if_neg hc]
      show runChecks cfg [(key, ⟨c + 1, now + cfg.windowMs⟩)] (List.replicate m (key, now)) = _
      rw [ih (c + 1) (by omega) (by omega)]
      have : min (c + 1 + m) cfg.maxRequests = min (c + (m + 1)) cfg.maxRequests := by omega
      rw [this]

theorem iter_replicate_eq (cfg : RateLimitConfig) (key : String) (now : Nat)
    (hw : 1 ≤ cfg.windowMs) :
    ∀ n, 1 ≤ n → n ≤ cfg.maxRequests →
      runChecks cfg [] (List.replicate n (key, now)) =
        [(key, ⟨n, now + cfg.windowMs⟩)] := by
  intro n h1 h2
  cases n with
  | zero => omega
  | succ m =>
    rw [List.replicate_succ, runChecks, check_empty]
    show runChecks cfg [(key, ⟨1, now + cfg.windowMs⟩)] (List.replicate m (key, now)) = _
    rw [runChecks_replicate_single cfg key now hw m 1 (le_refl 1) (by omega)]
    have : min (1 + m) cfg.maxRequests = m + 1 := by omega
    rw [this]

theorem lsGet_lsSet_self (st : LocalStorage) (k v : String) :
    lsGet (lsSet st k v) k = some v := by
  induction st with
  | nil => simp [lsGet, lsSet]
  | cons p rest ih =>
    rw [lsSet]
    by_cases h : p.1 = k
    · simp [h, lsGet]
    · simp only [h, if_false]
      rw [lsGet, if_neg h]
      exact ih

/-! ## The claims -/

/-- C1, counterexample.  A `POST /cancellation` body whose `feedback` is
`"<script>alert('xss')</script>"` (with valid `userId`, `variant`,
`reason`) is NOT rejected with 400: the handler answers 200 and the
persistence function `handleCancellationCompletion` IS invoked. -/
theorem c1_claim_false :
    (handleCancellation c1Body).status ≠ 400 ∧
    (handleCancellation c1Body).persistenceCalled = true := by
  decide

/-- C1, amended.  For that request, `sanitizeFeedback` nullifies the
feedback before the malicious-content check (the stripped text is
shorter than the 25-character minimum), so `isMalicious` is evaluated on
the empty string and the request succeeds with 200, the persistence
function being invoked with the feedback dropped. -/
theorem c1_scripted_feedback_accepted :
    sanitizeFeedback (.str "<script>alert('xss')</script>") 25 1000 = none ∧
    (sanitizeObject c1Body).feedback = none ∧
    isMalicious "" = false ∧
    handleCancellation c1Body =
      { status := 200, errorMsg := none, persistenceCalled := true,
        successData := some ("u1", "A", "too-expensive") } := by
  decide

/-- C3.  For a mutating (non-GET) request, the CSRF middleware proceeds
to the wrapped handler exactly when the provided token and the stored
cookie token are both non-empty and byte-for-byte equal; in every other
case (any difference, or either token empty or absent) the outcome is
the structured 403 rejection and the handler is never invoked. -/
theorem c3_csrf_verification_iff (method : String)
    (providedToken storedToken : Option String) (h : method ≠ "GET") :
    (csrfMiddleware method providedToken storedToken = .proceed ↔
      (providedToken.getD "" ≠ "" ∧ storedToken.getD "" ≠ "" ∧
        providedToken.getD "" = storedToken.getD "")) ∧
    (csrfMiddleware method providedToken storedToken = .proceed ∨
      csrfMiddleware method providedToken storedToken =
        .reject 403 "CSRF token validation failed" "Invalid or missing CSRF token") := by
  unfold csrfMiddleware
  rw [if_neg h]
  by_cases hv : verifyToken (providedToken.getD "") (storedToken.getD "") = true
  · constructor
    · rw [if_pos hv]
      simp only [true_iff]
      exact (verifyToken_iff _ _).mp hv
    · left
      rw [if_pos hv]
  · constructor
    · rw [if_neg hv]
      constructor
      · intro hc
        exact absurd hc (by simp)
      · intro hr
        exact absurd ((verifyToken_iff _ _).mpr hr) hv
    · right
      rw [if_neg hv]

theorem c3_csrf_verification_iff_witness :
    csrfMiddleware "POST" (some "tok") (some "tok") = .proceed ∧
    csrfMiddleware "POST" (some "tok") (some "toX") =
      .reject 403 "CSRF token validation failed" "Invalid or missing CSRF token" := by
  have h1 := c3_csrf_verification_iff "POST" (some "tok") (some "tok") (by decide)
  have h2 := c3_csrf_verification_iff "POST" (some "tok") (some "toX") (by decide)
  constructor
  · exact h1.1.mpr (by decide)
  · rcases h2.2 with hp | hr
    · exact absurd (h2.1.mp hp).2.2 (by decide)
    · exact hr

/-- C5.  The CSRF token comparison is timing-safe: the number of
per-character comparison steps of `timingSafeEqual` is a function of the
two lengths alone (in particular, for equal-length tokens the loop
always scans the full length), so it does not depend on where the first
mismatch occurs; and the instrumented comparison computes the same
boolean as the real one. -/
theorem c5_timing_safe_scan (a b c d : String)
    (hac : a.length = c.length) (hbd : b.length = d.length) :
    (timingSafeEqualSteps a b).2 = (timingSafeEqualSteps c d).2 ∧
    (a.length = b.length → (timingSafeEqualSteps a b).2 = a.length) ∧
    (timingSafeEqualSteps a b).1 = timingSafeEqual a b := by
  have key : ∀ x y : String,
      (timingSafeEqualSteps x y).2 = if x.length = y.length then x.length else 0 := by
    intro x y
    unfold timingSafeEqualSteps
    by_cases h : x.length = y.length
    · rw [if_neg (by simp [h]), if_pos h]
      simp only
      rw [tseLoop_snd]
      rw [← string_length_data, ← string_length_data, ← h]
      simp
    · rw [if_pos (by simp [h]), if_neg h]
  refine ⟨?_, ?_, ?_⟩
  · rw [key, key, hac, hbd]
  · intro h
    rw [key, if_pos h]
  · unfold timingSafeEqualSteps timingSafeEqual
    by_cases h : a.length = b.length
    · rw [if_neg (by simp [h]), if_neg (by simp [h])]
    · rw [if_pos (by simp [h]), if_pos (by simp [h])]

theorem c5_timing_safe_scan_witness :
    (timingSafeEqualSteps "abcd" "abzz").2 = (timingSafeEqualSteps "wxyz" "wxyq").2 ∧
    (timingSafeEqualSteps "abcd" "abzz").2 = 4 := by
  have h := c5_timing_safe_scan "abcd" "abzz" "wxyz" "wxyq" (by decide) (by decide)
  exact ⟨h.1, (h.2.1 (by decide)).trans (by decide)⟩

/-- C6.  For every non-negative price in cents, variant A keeps the
price and variant B subtracts 1000 cents floored at zero; in particular
`calculateDownsellPrice(2500,'A') = 2500`,
`calculateDownsellPrice(2500,'B') = 1500` and
`calculateDownsellPrice(500,'B') = 0`. -/
theorem c6_downsell_price (currentPrice : Int) (h : 0 ≤ currentPrice) :
    calculateDownsellPrice currentPrice .A = currentPrice ∧
    calculateDownsellPrice currentPrice .B = max (currentPrice - 1000) 0 ∧
    calculateDownsellPrice 2500 .A = 2500 ∧
    calculateDownsellPrice 2500 .B = 1500 ∧
    calculateDownsellPrice 500 .B = 0 :=
  ⟨rfl, rfl, rfl, by decide, by decide⟩

theorem c6_downsell_price_witness :
    0 ≤ (2500 : Int) ∧ calculateDownsellPrice 2500 .A = 2500 :=
  ⟨by decide, (c6_downsell_price 2500 (by decide)).1⟩

/-- C8.  With durable persistence available (browser context),
`getOrAssignVariant` is idempotent per user: a second call for the same
`userId` — whatever bytes its randomness sources would produce — returns
the variant of the first call, reports `isNewAssignment = false` and
leaves the storage unchanged. -/
theorem c8_variant_idempotent (storage : LocalStorage) (userId : String)
    (c1 c2 : Bool) (b1 b2 : Nat) (m1 m2 : Bool) :
    (getOrAssignVariant true c2 b2 m2
        (getOrAssignVariant true c1 b1 m1 storage userId).2 userId).1.variant =
      (getOrAssignVariant true c1 b1 m1 storage userId).1.variant ∧
    (getOrAssignVariant true c2 b2 m2
        (getOrAssignVariant true c1 b1 m1 storage userId).2 userId).1.isNewAssignment =
      false ∧
    (getOrAssignVariant true c2 b2 m2
        (getOrAssignVariant true c1 b1 m1 storage userId).2 userId).2 =
      (getOrAssignVariant true c1 b1 m1 storage userId).2 := by
  unfold getOrAssignVariant
  simp only [if_true]
  by_cases hA : lsGet storage ("ab-variant-" ++ userId) = some "A"
  · simp [hA]
  · by_cases hB : lsGet storage ("ab-variant-" ++ userId) = some "B"
    · simp [hA, hB]
    · simp only [hA, hB, if_false]
      cases hv : generateSecureVariant c1 b1 m1 with
      | A =>
        have := lsGet_lsSet_self storage ("ab-variant-" ++ userId) "A"
        simp [hv, variantToString, this]
      | B =>
        have := lsGet_lsSet_self storage ("ab-variant-" ++ userId) "B"
        simp [hv, variantToString, this]

/-- C9.  The sanitizers are total functions of their (arbitrary
JavaScript) input and signal failure through their return value: on any
non-string input `sanitizeText` and `sanitizeHTML` return the empty
string and the validating sanitizers return `null`. -/
theorem c9_sanitizers_total_nonstring (v : JSVal) (h : ∀ s, v ≠ .str s) :
    sanitizeText v = "" ∧ sanitizeHTML v = "" ∧ sanitizeEmail v = none ∧
    sanitizeAmount v = none ∧ sanitizeUserId v = none ∧
    sanitizeFeedback v 25 1000 = none ∧ sanitizeReason v = none := by
  cases v with
  | str s => exact absurd rfl (h s)
  | num n => exact ⟨rfl, rfl, rfl, rfl, rfl, rfl, rfl⟩
  | boolean b => exact ⟨rfl, rfl, rfl, rfl, rfl, rfl, rfl⟩
  | null => exact ⟨rfl, rfl, rfl, rfl, rfl, rfl, rfl⟩
  | undef => exact ⟨rfl, rfl, rfl, rfl, rfl, rfl, rfl⟩

theorem c9_sanitizers_total_nonstring_witness :
    (∀ s, JSVal.null ≠ .str s) ∧ sanitizeText JSVal.null = "" :=
  ⟨fun s => JSVal.noConfusion,
   (c9_sanitizers_total_nonstring .null (fun s => JSVal.noConfusion)).1⟩

/-- C10.  There is a markup-free input (no `<` at all) on which
`sanitizeText` still returns a string containing `javascript:`: deleting
the single inner occurrence of the scheme concatenates the surrounding
characters into a new occurrence, and each replacement runs in a single
non-repeated pass. -/
theorem c10_sanitize_text_reintroduces_scheme :
    ∃ s : String, csHasSubStr "<" s = false ∧
      csHasSubStr "javascript:" (sanitizeText (.str s)) = true :=
  ⟨"jjavascript:avascript:", by decide⟩

/-- C2.  `check(key)` contract, for any well-formed store: on first
observation of the key, or when the stored entry's `resetTime ≤ now`, it
initializes `count = 1` and `resetTime = now + windowMs` and returns
`allowed = true` with `remaining = maxRequests − 1`; when the stored
count is at least `maxRequests` within the window it returns
`allowed = false` with `remaining = 0` without incrementing the count or
changing `resetTime`; otherwise it increments the count and returns
`allowed = true` with `remaining = maxRequests − count`. -/
theorem c2_check_contract (cfg : RateLimitConfig) (st : RateLimitStore) (key : String)
    (now : Nat) (hnd : keysNodup st) :
    ((storeGet st key = none ∨ (∃ e, storeGet st key = some e ∧ e.resetTime ≤ now)) →
      (check cfg st key now).1 =
        ⟨true, (cfg.maxRequests : Int) - 1, now + cfg.windowMs⟩ ∧
      storeGet (check cfg st key now).2 key = some ⟨1, now + cfg.windowMs⟩) ∧
    (∀ e, storeGet st key = some e → now < e.resetTime → cfg.maxRequests ≤ e.count →
      (check cfg st key now).1 = ⟨false, 0, e.resetTime⟩ ∧
      storeGet (check cfg st key now).2 key = some e) ∧
    (∀ e, storeGet st key = some e → now < e.resetTime → e.count < cfg.maxRequests →
      (check cfg st key now).1 =
        ⟨true, (cfg.maxRequests : Int) - ((e.count + 1 : Nat) : Int), e.resetTime⟩ ∧
      storeGet (check cfg st key now).2 key = some ⟨e.count + 1, e.resetTime⟩) := by
  refine ⟨?_, ?_, ?_⟩
  · intro h1
    have hc : storeGet (cleanup now st) key = none := by
      rw [storeGet_cleanup now st key hnd]
      rcases h1 with h | ⟨e, he, hle⟩
      · rw [h]; rfl
      · rw [he]
        simp [Nat.not_lt.mpr hle]
    have hck : check cfg st key now =
        (⟨true, (cfg.maxRequests : Int) - 1, now + cfg.windowMs⟩,
         storeSet (cleanup now st) key ⟨1, now + cfg.windowMs⟩) := by
      unfold check
      rw [hc]
    rw [hck]
    exact ⟨rfl, storeGet_storeSet_self _ _ _⟩
  · intro e he hlt hge
    have hc : storeGet (cleanup now st) key = some e := by
      rw [storeGet_cleanup now st key hnd, he]
      simp [hlt]
    have hck : check cfg st key now = (⟨false, 0, e.resetTime⟩, cleanup now st) := by
      unfold check
      rw [hc]
      dsimp only
      rw [if_neg (by omega), if_pos hge]
    rw [hck]
    exact ⟨rfl, hc⟩
  · intro e he hlt hcount
    have hc : storeGet (cleanup now st) key = some e := by
      rw [storeGet_cleanup now st key hnd, he]
      simp [hlt]
    have hck : check cfg st key now =
        (⟨true, (cfg.maxRequests : Int) - ((e.count + 1 : Nat) : Int), e.resetTime⟩,
         storeSet (cleanup now st) key ⟨e.count + 1, e.resetTime⟩) := by
      unfold check
      rw [hc]
      dsimp only
      rw [if_neg (by omega), if_neg (by omega)]
    rw [hck]
    exact ⟨rfl, storeGet_storeSet_self _ _ _⟩

theorem c2_check_contract_witness :
    (check ⟨1000, 3⟩ [] "k" 5).1 = ⟨true, 2, 1005⟩ ∧
    (check ⟨1000, 3⟩ [("k", ⟨3, 1005⟩)] "k" 5).1 = ⟨false, 0, 1005⟩ ∧
    (check ⟨1000, 3⟩ [("k", ⟨1, 1005⟩)] "k" 5).1 = ⟨true, 1, 1005⟩ := by
  have h1 := c2_check_contract ⟨1000, 3⟩ [] "k" 5 (by simp [keysNodup])
  have h2 := c2_check_contract ⟨1000, 3⟩ [("k", ⟨3, 1005⟩)] "k" 5 (by simp [keysNodup])
  have h3 := c2_check_contract ⟨1000, 3⟩ [("k", ⟨1, 1005⟩)] "k" 5 (by simp [keysNodup])
  refine ⟨?_, ?_, ?_⟩
  · exact ((h1.1 (Or.inl rfl)).1).trans (by decide)
  · exact ((h2.2.1 ⟨3, 1005⟩ rfl (by decide) (by decide)).1).trans (by decide)
  · exact ((h3.2.2 ⟨1, 1005⟩ rfl (by decide) (by decide)).1).trans (by decide)

/-- C7.  Rate-limiter invariant: for any configuration with a positive
limit and window, (a) after any sequence of `check` calls starting from
a count-bounded store every stored count is still at most `maxRequests`;
(b) each of the first `maxRequests` same-window calls for a key is
allowed; (c) the call after exactly `maxRequests` allowed calls within
one window returns `allowed = false` with `remaining = 0`; and (d) that
refused call leaves the store unchanged (no increment beyond the
limit). -/
theorem c7_rate_limit_invariant (cfg : RateLimitConfig) (key : String) (now : Nat)
    (hm : 1 ≤ cfg.maxRequests) (hw : 1 ≤ cfg.windowMs) :
    (∀ (calls : List (String × Nat)) (st : RateLimitStore),
        countsBounded st cfg.maxRequests →
        countsBounded (runChecks cfg st calls) cfg.maxRequests) ∧
    (∀ n, n < cfg.maxRequests →
        (check cfg (runChecks cfg [] (List.replicate n (key, now))) key now).1.allowed =
          true) ∧
    (check cfg (runChecks cfg [] (List.replicate cfg.maxRequests (key, now))) key now).1 =
      ⟨false, 0, now + cfg.windowMs⟩ ∧
    (check cfg (runChecks cfg [] (List.replicate cfg.maxRequests (key, now))) key now).2 =
      runChecks cfg [] (List.replicate cfg.maxRequests (key, now)) := by
  have hiterMax := iter_replicate_eq cfg key now hw cfg.maxRequests hm (le_refl _)
  refine ⟨runChecks_preserves_bounded cfg hm, ?_, ?_, ?_⟩
  · intro n hn
    cases n with
    | zero =>
      rw [List.replicate_zero]
      rw [show runChecks cfg [] [] = [] from rfl]
      rw [check_empty]
    | succ m =>
      rw [iter_replicate_eq cfg key now hw (m + 1) (by omega) (by omega)]
      rw [check_single_entry cfg key now (m + 1) hw]
      rw [if_neg (by omega)]
  · rw [hiterMax, check_single_entry cfg key now cfg.maxRequests hw,
      if_pos (le_refl _)]
  · rw [hiterMax, check_single_entry cfg key now cfg.maxRequests hw,
      if_pos (le_refl _)]

theorem c7_rate_limit_invariant_witness :
    (check cancellationConfig
        (runChecks cancellationConfig []
          (List.replicate cancellationConfig.maxRequests ("ip", 0))) "ip" 0).1 =
      ⟨false, 0, 0 + cancellationConfig.windowMs⟩ := by
  have h := c7_rate_limit_invariant cancellationConfig "ip" 0 (by decide) (by decide)
  exact h.2.2.1

/-- C4, counterexample.  A refused (429) response of the cancellation
route carries neither a `Retry-After` header nor any `X-RateLimit-*`
header: the source's 429 branch returns a bare JSON body (with a
`retryAfter` body field) and never sets headers. -/
theorem c4_claim_false :
    (cancellationPOST [("ip", ⟨10, 1000000⟩)] "ip" 500000 200).1.status = 429 ∧
    hasHeader (cancellationPOST [("ip", ⟨10, 1000000⟩)] "ip" 500000 200).1.headers
      "Retry-After" = false ∧
    hasHeader (cancellationPOST [("ip", ⟨10, 1000000⟩)] "ip" 500000 200).1.headers
      "X-RateLimit-Limit" = false := by
  decide

/-- C4, amended.  Allowed responses of the cancellation route carry the
three `X-RateLimit-*` headers with the handler's status, while its 429
carries no headers at all and reports the retry delay only in the JSON
body; the global middleware's pass-through (200) response carries the
three `X-RateLimit-*` headers, and its 429 carries all three plus a
`Retry-After` header with the seconds until `resetTime`. -/
theorem c4_rate_limit_headers (st : RateLimitStore) (clientIP userAgent method : String)
    (reqHeaders : List (String × String)) (reqId : String) (now handlerStatus : Nat) :
    ((check cancellationConfig st clientIP now).1.allowed = true →
      (cancellationPOST st clientIP now handlerStatus).1.status = handlerStatus ∧
      (cancellationPOST st clientIP now handlerStatus).1.handlerInvoked = true ∧
      hasHeader (cancellationPOST st clientIP now handlerStatus).1.headers
        "X-RateLimit-Limit" = true ∧
      hasHeader (cancellationPOST st clientIP now handlerStatus).1.headers
        "X-RateLimit-Remaining" = true ∧
      hasHeader (cancellationPOST st clientIP now handlerStatus).1.headers
        "X-RateLimit-Reset" = true) ∧
    ((check cancellationConfig st clientIP now).1.allowed = false →
      (cancellationPOST st clientIP now handlerStatus).1.status = 429 ∧
      (cancellationPOST st clientIP now handlerStatus).1.headers = [] ∧
      (cancellationPOST st clientIP now handlerStatus).1.bodyRetryAfter =
        some (retryAfterSecs (check cancellationConfig st clientIP now).1.resetTime now) ∧
      (cancellationPOST st clientIP now handlerStatus).1.handlerInvoked = false) ∧
    ((check apiConfig st clientIP now).1.allowed = false →
      (globalMiddleware st clientIP userAgent method reqHeaders reqId now).1.status = 429 ∧
      hasHeader (globalMiddleware st clientIP userAgent method reqHeaders reqId now).1.headers
        "X-RateLimit-Limit" = true ∧
      hasHeader (globalMiddleware st clientIP userAgent method reqHeaders reqId now).1.headers
        "X-RateLimit-Remaining" = true ∧
      hasHeader (globalMiddleware st clientIP userAgent method reqHeaders reqId now).1.headers
        "X-RateLimit-Reset" = true ∧
      hasHeader (globalMiddleware st clientIP userAgent method reqHeaders reqId now).1.headers
        "Retry-After" = true) ∧
    ((globalMiddleware st clientIP userAgent method reqHeaders reqId now).1.status = 200 →
      hasHeader (globalMiddleware st clientIP userAgent method reqHeaders reqId now).1.headers
        "X-RateLimit-Limit" = true ∧
      hasHeader (globalMiddleware st clientIP userAgent method reqHeaders reqId now).1.headers
        "X-RateLimit-Remaining" = true ∧
      hasHeader (globalMiddleware st clientIP userAgent method reqHeaders reqId now).1.headers
        "X-RateLimit-Reset" = true) := by
  refine ⟨?_, ?_, ?_, ?_⟩
  · intro ha
    unfold cancellationPOST
    rw [ha]
    exact ⟨rfl, rfl, rfl, rfl, rfl⟩
  · intro ha
    unfold cancellationPOST
    rw [ha]
    exact ⟨rfl, rfl, rfl, rfl⟩
  · intro ha
    unfold globalMiddleware
    rw [ha]
    exact ⟨rfl, rfl, rfl, rfl, rfl⟩
  · unfold globalMiddleware
    split
    · intro hs
      dsimp only at hs
      omega
    · split
      · intro hs
        dsimp only at hs
        omega
      · split
        · intro hs
          dsimp only at hs
          omega
        · split
          · intro hs
            dsimp only at hs
            omega
          · intro hs
            exact ⟨rfl, rfl, rfl⟩

theorem c4_rate_limit_headers_witness :
    hasHeader (cancellationPOST [] "ip" 0 200).1.headers "X-RateLimit-Limit" = true ∧
    (cancellationPOST [("ip", ⟨10, 1000000⟩)] "ip" 500000 200).1.status = 429 ∧
    (globalMiddleware [("ip", ⟨100, 900000⟩)] "ip" "Mozilla/5.0" "POST" [] "req1" 0).1.status =
      429 ∧
    hasHeader (globalMiddleware [("ip", ⟨100, 900000⟩)] "ip" "Mozilla/5.0" "POST" [] "req1"
      0).1.headers "Retry-After" = true ∧
    hasHeader (globalMiddleware [] "ip" "Mozilla/5.0" "POST" [] "req1" 0).1.headers
      "X-RateLimit-Reset" = true := by
  have h1 := c4_rate_limit_headers [] "ip" "Mozilla/5.0" "POST" [] "req1" 0 200
  have h2 := c4_rate_limit_headers [("ip", ⟨10, 1000000⟩)] "ip" "Mozilla/5.0" "POST" []
    "req1" 500000 200
  have h3 := c4_rate_limit_headers [("ip", ⟨100, 900000⟩)] "ip" "Mozilla/5.0" "POST" []
    "req1" 0 200
  exact ⟨(h1.1 (by decide)).2.2.1, (h2.2.1 (by decide)).1, (h3.2.2.1 (by decide)).1,
    (h3.2.2.1 (by decide)).2.2.2.2, (h1.2.2.2 (by decide)).2.2⟩

end CancelFlow
